import Mathlib

/-!
Shallow embedding of the Agent-Quota aggregation-and-rendering pipeline.

Strings of the TypeScript source are modelled as lists of characters
(`Str := List Char`); JavaScript string operations map to list operations:
`split("\n")` to `splitNl`, `startsWith` to `List.isPrefixOf`, `includes`
to `List.isInfixOf`, `trim()` to `jsTrim`, `slice(3)` to `List.drop 3`,
`toLowerCase()` to a character-wise ASCII lowering, `join(sep)` to
`List.intercalate`.  JavaScript numbers appearing in the pipeline are
either integers (modelled as `Nat`/`Int`) or the exact rationals produced
by the health/average computations (modelled as `Rat`, with `Math.round`
modelled as `jsRound`).  Timestamps (`new Date()`) are modelled as an
explicit `now : Nat` parameter threaded to the point where the source
calls the clock; `Date | null` becomes `Option Nat`.  An `async` provider
query is modelled by the value it settles with: `Except Str QueryResult`,
where `.error e` is a rejected promise (the fan-out's `catch` path) and
`.ok r` a resolved `QueryResult`.
-/

/-- Characters of a modelled JavaScript string. -/
abbrev Str := List Char

/-- Convert a Lean string literal to the character-list model. -/
def strL (s : String) : Str := s.toList

/-- The newline character used by `split("\n")` and `join("\n")`. -/
def nlChar : Char := '\n'

/-- Model of JavaScript `content.split("\n")`: splitting on `'\n'`,
where the empty string splits to `[""]` and a trailing newline yields a
trailing empty piece; this is exactly `List.splitOn`. -/
def splitNl (s : Str) : List Str := s.splitOn nlChar

/-- Characters treated as whitespace by JavaScript `trim()` and by the
regular-expression class `\s` (WhiteSpace plus LineTerminator). -/
def isJsSpace (c : Char) : Bool :=
  c.toNat = 0x20 || c.toNat = 0x09 || c.toNat = 0x0A || c.toNat = 0x0B ||
  c.toNat = 0x0C || c.toNat = 0x0D || c.toNat = 0xA0 || c.toNat = 0x1680 ||
  (0x2000 <= c.toNat && c.toNat <= 0x200A) ||
  c.toNat = 0x2028 || c.toNat = 0x2029 || c.toNat = 0x202F ||
  c.toNat = 0x205F || c.toNat = 0x3000 || c.toNat = 0xFEFF

/-- Model of JavaScript `s.trim()`: strip leading and trailing whitespace. -/
def jsTrim (s : Str) : Str :=
  ((s.dropWhile isJsSpace).reverse.dropWhile isJsSpace).reverse

/-- Recursion core of `natStr`, modelling JavaScript number-to-string
conversion for the nonnegative integers interpolated into template
literals. -/
def natStrFuel : Nat → Nat → Str
  | 0, _ => []
  | fuel + 1, n =>
    if n < 10 then [Char.ofNat (48 + n)]
    else natStrFuel fuel (n / 10) ++ [Char.ofNat (48 + n % 10)]

/-- Decimal digit characters of a natural number; the fuel `n + 1`
bounds the digit count, keeping the recursion structural so that
concrete values reduce inside the kernel. -/
def natStr (n : Nat) : Str := natStrFuel (n + 1) n

/-- Model of JavaScript `Math.round` on an exact rational: round half
toward positive infinity. -/
def jsRound (q : ℚ) : ℤ := ⌊q + 1/2⌋

/-- Outcome a provider's `query()` resolves with:
`{success:true, output}` or `{success:false, error}`. -/
inductive QueryResult : Type
  | success (output : Str)
  | failure (error : Str)
  deriving DecidableEq, Repr

deriving instance DecidableEq for Except

/-- Provider descriptor `{id, label, query}`; the asynchronous `query`
operation is modelled by the value it settles with (`.error e` models a
rejected promise). -/
structure Provider : Type where
  id : Str
  label : Str
  query : Except Str QueryResult
  deriving DecidableEq, Repr

/-- Overall status of the dashboard state (`"idle" | "loading" | "ok" | "error"`). -/
inductive AppStatus : Type
  | idle
  | loading
  | ok
  | error
  deriving DecidableEq, Repr

/-- The `AppState`/`QuerySnapshot` record `{lastUpdated, status, content, message}`. -/
structure QuerySnapshot : Type where
  lastUpdated : Option Nat
  status : AppStatus
  content : Str
  message : Str
  deriving DecidableEq, Repr

/-- Status of one parsed section (`"ok" | "warning" | "error"`). -/
inductive SectionStatus : Type
  | ok
  | warning
  | error
  deriving DecidableEq, Repr

/-- A parsed section `{name, lines, status}`. -/
structure ParsedSection : Type where
  name : Str
  lines : List Str
  status : SectionStatus
  deriving DecidableEq, Repr

/-- Model of `Promise.all(providers.map(async p => ({provider: p, result: await p.query()})))`:
resolves to the provider/result pairs, or rejects with a provider's
rejection.  The recursion surfaces the first rejection in list order, a
deterministic representative of the temporally-first rejection
`Promise.all` reports. -/
def resolveAll : List Provider → Except Str (List (Provider × QueryResult))
  | [] => Except.ok []
  | p :: ps =>
    match p.query with
    | .error e => .error e
    | .ok r =>
      match resolveAll ps with
      | .error e => .error e
      | .ok rs => .ok ((p, r) :: rs)

/-- The content block one provider contributes to the snapshot:
`"## "+label+"\n"+output` on success, `"## "+label+"\nERROR: "+error` on
failure. -/
def sectionBlock (p : Provider) (r : QueryResult) : Str :=
  match r with
  | .success output => strL "## " ++ p.label ++ [nlChar] ++ output
  | .failure err => strL "## " ++ p.label ++ strL "\nERROR: " ++ err

/-- The entry a failed provider contributes to the `failures` list:
`` `${provider.label}: ${result.error}` ``. -/
def failureEntry? (pr : Provider × QueryResult) : Option Str :=
  match pr.2 with
  | .success _ => none
  | .failure err => some (pr.1.label ++ strL ": " ++ err)

/-- Embedding of `queryProviders` (src/app/query.ts): fan out to every
provider, and on completion build the snapshot; the `catch` branch
produces the error snapshot with empty content and a `null` timestamp. -/
def queryProviders (now : Nat) (providers : List Provider) : QuerySnapshot :=
  match resolveAll providers with
  | .error e =>
      { lastUpdated := none, status := .error, content := [], message := e }
  | .ok results =>
      let sections := results.map (fun pr => sectionBlock pr.1 pr.2)
      let failures := results.filterMap failureEntry?
      { lastUpdated := some now
        status := if failures.length = 0 then .ok else .error
        content := List.intercalate (strL "\n\n") sections
        message :=
          if failures.length = 0 then []
          else natStr failures.length ++ strL " provider(s) failed." }

/-- Model of JavaScript `hay.includes(needle)`: `needle` occurs as a
contiguous substring of `hay`. -/
def strContains : Str → Str → Bool
  | needle, [] => needle.isEmpty
  | needle, c :: rest => needle.isPrefixOf (c :: rest) || strContains needle rest

/-- Test of `line.startsWith("## ")`. -/
def isMarkerLine (line : Str) : Bool := (strL "## ").isPrefixOf line

/-- Embedding of the `for (const line of content.split("\n"))` loop of
`parseSections`: `active` is the open section (name and lines collected
so far), `acc` the closed sections in order. -/
def sectionLoop : Option (Str × List Str) → List (Str × List Str) → List Str →
    List (Str × List Str)
  | active, acc, [] => acc ++ active.toList
  | active, acc, line :: rest =>
    if isMarkerLine line then
      sectionLoop (some (jsTrim (line.drop 3), [])) (acc ++ active.toList) rest
    else
      match active with
      | none => sectionLoop (some (strL "General", [line])) acc rest
      | some a => sectionLoop (some (a.1, a.2 ++ [line])) acc rest

/-- The classification pass of `parseSections`: `error` if some line
starts with `"ERROR:"` or contains `"unavailable"`, else `warning` if
some line contains `"skipped"`, else `ok`. -/
def classifyLines (lines : List Str) : SectionStatus :=
  if lines.any (fun line =>
      (strL "ERROR:").isPrefixOf line || strContains (strL "unavailable") line) then
    .error
  else if lines.any (fun line => strContains (strL "skipped") line) then
    .warning
  else
    .ok

/-- Embedding of `parseSections` (src/app/status-model.ts): the blank-
content guard `if (!content.trim()) return []`, the line loop, then the
per-section classification pass. -/
def parseSections (content : Str) : List ParsedSection :=
  if jsTrim content = [] then []
  else
    (sectionLoop none [] (splitNl content)).map
      (fun s => { name := s.1, lines := s.2, status := classifyLines s.2 })

/-- Embedding of `healthScore`: `Math.round((points / total) * 100)` with
one point per `ok` section and half a point per `warning` section, and
`0` for the empty section list. -/
def healthScore (sections : List ParsedSection) : ℤ :=
  if sections.length = 0 then 0
  else
    let total : ℚ := sections.length
    let points : ℚ := sections.foldl
      (fun acc s =>
        let acc2 := if s.status = .ok then acc + 1 else acc
        if s.status = .warning then acc2 + 1/2 else acc2) 0
    jsRound (points / total * 100)

/-- Character-wise ASCII lowering, modelling `String.prototype.toLowerCase`
on the ASCII labels and section names the pipeline handles. -/
def lowerStr (s : Str) : Str := s.map Char.toLower

/-- Embedding of `getProviderSection`: the first section whose name
equals the provider label case-insensitively. -/
def getProviderSection (sections : List ParsedSection) (providerLabel : Str) :
    Option ParsedSection :=
  let needle := lowerStr providerLabel
  sections.find? (fun s => lowerStr s.name == needle)

/-- Word characters of the regular-expression class `\w` (`[A-Za-z0-9_]`),
used by the `\b` boundary assertions. -/
def isWordChar (c : Char) : Bool := c.isAlpha || c.isDigit || c = '_'

/-- Numeric value of the decimal digit string a regex capture holds;
models `Number(match[1])` on a 1–3 digit capture. -/
def digitsVal (run : Str) : Nat :=
  run.foldl (fun acc c => acc * 10 + (c.toNat - 48)) 0

/-- Match of the regex `/\b(\d{1,3})%\s+remaining\b/i` anchored at the
current position, `prev` being the character immediately before it:
a word boundary, a maximal digit run of length 1–3 followed by `'%'`
(greediness with backtracking reduces to exactly this), one or more
whitespace characters, the word `remaining` case-insensitively, and a
closing word boundary. -/
def percentMatchAt (prev : Option Char) (s : Str) : Option Nat :=
  if (match prev with | none => true | some c => !isWordChar c) then
    let run := s.takeWhile Char.isDigit
    let rest := s.drop run.length
    if 1 ≤ run.length ∧ run.length ≤ 3 then
      match rest with
      | '%' :: afterPct =>
        let spaces := afterPct.takeWhile isJsSpace
        let afterSpace := afterPct.drop spaces.length
        if spaces.length ≥ 1 ∧ lowerStr (afterSpace.take 9) = strL "remaining" then
          match afterSpace.drop 9 with
          | [] => some (digitsVal run)
          | c :: _ => if isWordChar c then none else some (digitsVal run)
        else none
      | _ => none
    else none
  else none

/-- Leftmost match of `/\b(\d{1,3})%\s+remaining\b/i` in a line, scanning
start positions left to right; models `line.match(...)` returning the
first match or `null`. -/
def scanPercent : Option Char → Str → Option Nat
  | _, [] => none
  | prev, c :: rest =>
    match percentMatchAt prev (c :: rest) with
    | some v => some v
    | none => scanPercent (some c) rest

/-- Embedding of `extractRemainingPercents`: the first capture of each
line, clamped to `[0, 100]` by `Math.max(0, Math.min(100, percent))`
(the `Number.isFinite` guard always holds for a 1–3 digit capture). -/
def extractRemainingPercents (sec : Option ParsedSection) : List Nat :=
  match sec with
  | none => []
  | some s =>
    s.lines.filterMap (fun line =>
      (scanPercent none line).map (fun percent => max 0 (min 100 percent)))

/-- Embedding of `averageRemaining`: `Math.round` of the mean of the
extracted percentages, `null` when there are none. -/
def averageRemaining (sec : Option ParsedSection) : Option ℤ :=
  let points := extractRemainingPercents sec
  if points.length = 0 then none
  else some (jsRound ((points.sum : ℚ) / points.length))

/-- The `ProviderSummary` record; `section` is a reserved word in Lean,
so the field is named `sect`. -/
structure ProviderSummary : Type where
  provider : Provider
  sect : Option ParsedSection
  avgRemaining : Option ℤ
  deriving DecidableEq, Repr

/-- Embedding of `buildProviderSummaries`: each provider in registry
order paired with its section and average-remaining metric. -/
def buildProviderSummaries (providers : List Provider)
    (sections : List ParsedSection) : List ProviderSummary :=
  providers.map (fun p =>
    let s := getProviderSection sections p.label
    { provider := p, sect := s, avgRemaining := averageRemaining s })

/-- Uppercase form of the overall status, modelling `status.toUpperCase()`. -/
def statusUpper : AppStatus → Str
  | .idle => strL "IDLE"
  | .loading => strL "LOADING"
  | .ok => strL "OK"
  | .error => strL "ERROR"

/-- Embedding of `statusLabel` (src/app/status-model.ts) on a defined
section status: `LIVE`, `PARTIAL` or `ISSUE`. -/
def statusLabel : SectionStatus → Str
  | .ok => strL "LIVE"
  | .warning => strL "PARTIAL"
  | .error => strL "ISSUE"

/-- Model of `value.padStart(2, "0")`. -/
def pad2 (s : Str) : Str :=
  if 2 ≤ s.length then s else List.replicate (2 - s.length) '0' ++ s

/-- Embedding of `formatClock`/`formatTime`: `"never"` for a `null`
timestamp, else `hh:mm:ss`; the `Date` is modelled as seconds since
midnight-epoch in local time, so `getHours`/`getMinutes`/`getSeconds`
become the arithmetic below. -/
def formatClock : Option Nat → Str
  | none => strL "never"
  | some t =>
    pad2 (natStr (t / 3600 % 24)) ++ strL ":" ++
    pad2 (natStr (t / 60 % 60)) ++ strL ":" ++
    pad2 (natStr (t % 60))

/-- The loading message `` `Querying ${providers.map(p => p.label).join(", ")}...` ``. -/
def queryingMessage (providers : List Provider) : Str :=
  strL "Querying " ++ List.intercalate (strL ", ") (providers.map (·.label)) ++ strL "..."

/-- The mutable module state of src/index.ts: the `inflight` flag
together with the `state` record. -/
structure LoopState : Type where
  inflight : Bool
  lastUpdated : Option Nat
  status : AppStatus
  content : Str
  message : Str
  deriving DecidableEq, Repr

/-- Observable outcome of one call to `refresh`: whether provider
queries were issued, the module state at the instant the fan-out was
dispatched (`none` when the call was a no-op), and the state after the
call returns. -/
structure RefreshRun : Type where
  issuedQueries : Bool
  duringFanout : Option LoopState
  final : LoopState
  deriving DecidableEq, Repr

/-- Embedding of `refresh` (src/index.ts): the `if (inflight) return`
guard, the flag set and loading message, the `try` body building the
snapshot in place, the `catch` branch (which leaves `lastUpdated`
untouched), and the `finally { inflight = false }`. -/
def refresh (providers : List Provider) (now : Nat) (st : LoopState) : RefreshRun :=
  if st.inflight then { issuedQueries := false, duringFanout := none, final := st }
  else
    let loading : LoopState :=
      { st with inflight := true, status := .loading, message := queryingMessage providers }
    let afterBody : LoopState :=
      match resolveAll providers with
      | .ok results =>
        let sections := results.map (fun pr => sectionBlock pr.1 pr.2)
        let failures := results.filterMap failureEntry?
        { loading with
          lastUpdated := some now
          content := List.intercalate (strL "\n\n") sections
          status := if failures.length = 0 then .ok else .error
          message :=
            if failures.length = 0 then []
            else natStr failures.length ++ strL " provider(s) failed." }
      | .error e =>
        { loading with status := .error, content := [], message := e }
    { issuedQueries := true
      duringFanout := some loading
      final := { afterBody with inflight := false } }

/-- The state owned by the `useStatusData` hook: the `inflight` ref and
the `AppState`. -/
structure HookState : Type where
  inflight : Bool
  app : QuerySnapshot
  deriving DecidableEq, Repr

/-- Observable outcome of one call to the hook's `refreshNow`, with the
same reading as `RefreshRun`. -/
structure HookRefreshRun : Type where
  issuedQueries : Bool
  duringFanout : Option HookState
  final : HookState
  deriving DecidableEq, Repr

/-- Embedding of `refreshNow` (src/ui/hooks/useStatusData.ts): the
`if (inflight.current) return` guard, the flag set, the loading state,
the awaited `queryProviders` (which never rejects — its body is wrapped
in `try`/`catch`), the snapshot replacement and the flag clear. -/
def refreshNow (providers : List Provider) (now : Nat) (st : HookState) : HookRefreshRun :=
  if st.inflight then { issuedQueries := false, duringFanout := none, final := st }
  else
    let loading : HookState :=
      { inflight := true
        app := { st.app with status := .loading, message := queryingMessage providers } }
    let snap := queryProviders now providers
    { issuedQueries := true
      duringFanout := some loading
      final := { inflight := false, app := snap } }

/-- Embedding of `setSelectedIndex` (useStatusData): clamp to `0` when
there are no providers, else normalize with the double-modulo
`((index % len) + len) % len`; JavaScript `%` is truncated remainder,
`Int.tmod`. -/
def setSelectedIndexFn (providersLen : Nat) (index : Int) : Nat :=
  if providersLen = 0 then 0
  else (((index.tmod providersLen) + providersLen).tmod providersLen).toNat

/-- Embedding of `nextProvider`: `setSelectedIndex((selectedIndex + 1) % Math.max(1, providers.length))`. -/
def nextProviderIdx (providersLen selectedIndex : Nat) : Nat :=
  setSelectedIndexFn providersLen
    (((selectedIndex : Int) + 1).tmod ((max 1 providersLen : Nat) : Int))

/-- Embedding of `prevProvider`: `setSelectedIndex((selectedIndex - 1 + Math.max(1, providers.length)) % Math.max(1, providers.length))`. -/
def prevProviderIdx (providersLen selectedIndex : Nat) : Nat :=
  setSelectedIndexFn providersLen
    (((selectedIndex : Int) - 1 + ((max 1 providersLen : Nat) : Int)).tmod
      ((max 1 providersLen : Nat) : Int))

/-- The view state owned by `App` (src/ui/App.tsx): selected provider
index and detail scroll offset. -/
structure ViewState : Type where
  selectedIndex : Nat
  detailOffset : Nat
  deriving DecidableEq, Repr

/-- Model of the App.tsx effect `useEffect(() => setDetailOffset(0), [selectedIndex])`:
storing a new selection resets the scroll offset to `0`; React re-runs
the effect exactly when the dependency value changed. -/
def applySelect (v : ViewState) (newIndex : Nat) : ViewState :=
  { selectedIndex := newIndex
    detailOffset := if newIndex = v.selectedIndex then v.detailOffset else 0 }

/-- Effect of the next-provider key (right arrow) on the view state. -/
def nextProviderKey (providersLen : Nat) (v : ViewState) : ViewState :=
  applySelect v (nextProviderIdx providersLen v.selectedIndex)

/-- Effect of the previous-provider key (left arrow) on the view state. -/
def prevProviderKey (providersLen : Nat) (v : ViewState) : ViewState :=
  applySelect v (prevProviderIdx providersLen v.selectedIndex)

/-- Model of `parts.filter(Boolean).join("\n")`: drop the empty strings,
join the rest with newlines. -/
def joinNonEmpty (parts : List Str) : Str :=
  List.intercalate [nlChar] (parts.filter (fun part => !part.isEmpty))

/-- Decimal string of an integer, modelling JavaScript number-to-string
conversion for integers. -/
def intStr (i : ℤ) : Str :=
  if i < 0 then '-' :: natStr i.natAbs else natStr i.natAbs

/-- Embedding of `renderOnce` (src/app/once.ts): header with state,
updated time and health score, one `name: LABEL` line per section, then
`snapshot.content || snapshot.message`, with empty segments dropped by
`filter(Boolean)`. -/
def renderOnce (snapshot : QuerySnapshot) : Str :=
  let sections := parseSections snapshot.content
  let score := healthScore sections
  let header := List.intercalate (strL " | ")
    [strL "Quota Status",
     strL "state=" ++ statusUpper snapshot.status,
     strL "updated=" ++ formatClock snapshot.lastUpdated,
     strL "health=" ++ intStr score ++ strL "%"]
  let summary := List.intercalate [nlChar]
    (sections.map (fun s => s.name ++ strL ": " ++ statusLabel s.status))
  joinNonEmpty [header, [], summary, [],
    if snapshot.content.isEmpty then snapshot.message else snapshot.content]

/-- Embedding of the `--once` branch of the current entry point: one
fan-out, `renderOnce` written with a trailing newline, and
`process.exitCode = snapshot.status === "error" ? 1 : 0`. -/
def onceMain (now : Nat) (providers : List Provider) : Str × Nat :=
  let snapshot := queryProviders now providers
  (renderOnce snapshot ++ [nlChar],
   if snapshot.status = .error then 1 else 0)

/-- Embedding of `buildOutputHeader` (src/index.ts):
`` `Agent Status TUI | status=${state.status.toUpperCase()} | updated=${formatTime(state.lastUpdated)}` ``. -/
def buildOutputHeader (st : LoopState) : Str :=
  strL "Agent Status TUI | status=" ++ statusUpper st.status ++
  strL " | updated=" ++ formatClock st.lastUpdated

/-- The initial module state of src/index.ts. -/
def initialLoopState : LoopState :=
  { inflight := false
    lastUpdated := none
    status := .idle
    content := []
    message := strL "Press r to refresh." }

/-- Embedding of the legacy `runOnce` (src/index.ts): one `refresh`,
then `[buildOutputHeader(), "", state.content || state.message].join("\n")`
written with a trailing newline, and `process.exit(state.status === "error" ? 1 : 0)`. -/
def runOnceMain (now : Nat) (providers : List Provider) : Str × Nat :=
  let run := refresh providers now initialLoopState
  let st := run.final
  let lines := [buildOutputHeader st, [],
    if st.content.isEmpty then st.message else st.content]
  (List.intercalate [nlChar] lines ++ [nlChar],
   if st.status = .error then 1 else 0)

/-- Status a section is classified with, written from the specified
priority rule: `error` if some line starts with `"ERROR:"` or contains
`"unavailable"`, else `warning` if some line contains `"skipped"`, else
`ok`; a match anywhere in the line list triggers it. -/
def classifySpecC3 (lines : List Str) : SectionStatus :=
  if ∃ l ∈ lines, strL "ERROR:" <+: l ∨ strL "unavailable" <:+: l then .error
  else if ∃ l ∈ lines, strL "skipped" <:+: l then .warning
  else .ok

/-- Number of `ok` sections. -/
def okCount (sections : List ParsedSection) : Nat :=
  sections.countP (fun s => s.status = SectionStatus.ok)

/-- Number of `warning` sections. -/
def warningCount (sections : List ParsedSection) : Nat :=
  sections.countP (fun s => s.status = SectionStatus.warning)

/-- Health score written from the specified formula:
`round(100 * (ok-count + 0.5 * warning-count) / total-count)`, `0` for
the empty section list; `error` sections contribute nothing. -/
def healthScoreSpec (sections : List ParsedSection) : ℤ :=
  if sections.length = 0 then 0
  else
    jsRound (100 * ((okCount sections : ℚ) + (1 / 2) * (warningCount sections : ℚ)) /
      (sections.length : ℚ))

/-- First section whose name equals the label case-insensitively,
written as filter-then-head. -/
def firstMatchingSection (sections : List ParsedSection) (label : Str) :
    Option ParsedSection :=
  (sections.filter (fun s => lowerStr s.name == lowerStr label)).head?

/-- Percentages captured by the pattern `"<1-3 digits>% remaining"`
across a line list — one capture per line, since `line.match` without
the global flag returns only the first match — clamped to `[0, 100]`. -/
def lineCaptures (lines : List Str) : List Nat :=
  ((lines.map (scanPercent none)).reduceOption).map (fun v => max 0 (min 100 v))

/-- Average-remaining written from the claim: the rounded mean of every
captured percentage, `null` when the section is absent or no line
matches. -/
def avgRemainingSpec (osec : Option ParsedSection) : Option ℤ :=
  match osec with
  | none => none
  | some s =>
    let caps := lineCaptures s.lines
    if caps = [] then none
    else some (jsRound ((caps.sum : ℚ) / (caps.length : ℚ)))

/-- Number of failure outcomes among the settled results. -/
def failedCount (results : List (Provider × QueryResult)) : Nat :=
  results.countP (fun pr => match pr.2 with
    | QueryResult.failure _ => true
    | QueryResult.success _ => false)

/-- Name rule the source applies to a marker line: the remainder after
the three-character marker, trimmed. -/
def trimName (m : Str) : Str := jsTrim (m.drop 3)

/-- Name rule as the claim words it: the remainder of the marker line. -/
def rawName (m : Str) : Str := m.drop 3

/-- Recursion core of `specMarkedWith`: the head line is a marker
opening a section that collects the following non-marker lines; the
fuel (at least the line count) keeps the recursion structural. -/
def specMarkedWithFuel (nameOf : Str → Str) : Nat → List Str → List (Str × List Str)
  | 0, _ => []
  | _, [] => []
  | fuel + 1, m :: rest =>
    (nameOf m, rest.takeWhile (fun l => !isMarkerLine l)) ::
      specMarkedWithFuel nameOf fuel (rest.dropWhile (fun l => !isMarkerLine l))

/-- Declarative grouping of a line list that starts with a marker line:
one section per marker, holding the non-marker lines that follow it
verbatim. -/
def specMarkedWith (nameOf : Str → Str) (lines : List Str) : List (Str × List Str) :=
  specMarkedWithFuel nameOf lines.length lines

/-- Declarative form of the whole split: lines before the first marker
(if any) form an implicit `"General"` section, then one section per
marker line. -/
def specSectionsWith (nameOf : Str → Str) (lines : List Str) : List (Str × List Str) :=
  let pre := lines.takeWhile (fun l => !isMarkerLine l)
  let post := lines.dropWhile (fun l => !isMarkerLine l)
  (if pre.isEmpty then [] else [(strL "General", pre)]) ++ specMarkedWith nameOf post

/-- The section parser exactly as the claim words it: splitting applies
to any non-empty content (only the empty content is special-cased to the
empty list), and a section is named by the untrimmed remainder of its
marker line. -/
def parseSectionsClaimC2 (content : Str) : List ParsedSection :=
  if content = [] then []
  else
    (specSectionsWith rawName (splitNl content)).map
      (fun s => { name := s.1, lines := s.2, status := classifySpecC3 s.2 })

/-- Header line of the once-mode summary as the spec words it: the
overall state, the last-updated time and the health percentage, joined
with `" | "` after the `"Quota Status"` title. -/
def c9Header (snapshot : QuerySnapshot) : Str :=
  List.intercalate (strL " | ")
    [strL "Quota Status",
     strL "state=" ++ statusUpper snapshot.status,
     strL "updated=" ++ formatClock snapshot.lastUpdated,
     strL "health=" ++ intStr (healthScore (parseSections snapshot.content)) ++ strL "%"]

/-- The per-section summary line `name: STATUSLABEL`. -/
def c9SectionLine (s : ParsedSection) : Str :=
  s.name ++ strL ": " ++ statusLabel s.status

/-- The text resolved for one outcome, as the claim quantifies it: the
success text or the failure message. -/
def outcomeBody : QueryResult → Str
  | .success output => output
  | .failure err => err

/-- The marker line a provider's block starts with. -/
def blockMarkerLine (p : Provider) : Str := strL "## " ++ p.label

/-- The body a provider's block carries under its marker line: the raw
output on success, the `"ERROR: "`-prefixed message on failure. -/
def blockBody : QueryResult → Str
  | .success output => output
  | .failure err => strL "ERROR: " ++ err

/-! ## Helper lemmas -/

/-- `strContains` agrees with the contiguous-substring relation. -/
theorem strContains_iff (needle hay : Str) : strContains needle hay = true ↔ needle <:+: hay := by
  induction hay with
  | nil =>
    simp [strContains, List.isEmpty_iff, List.infix_nil]
  | cons c rest ih =>
    simp only [strContains, Bool.or_eq_true, List.isPrefixOf_iff_prefix, ih,
      List.infix_cons_iff]

/-- The two classification passes agree: the imperative `some`-based one
and the declarative priority rule. -/
theorem classifyLines_eq_spec (lines : List Str) :
    classifyLines lines =
      (if ∃ l ∈ lines, strL "ERROR:" <+: l ∨ strL "unavailable" <:+: l then .error
       else if ∃ l ∈ lines, strL "skipped" <:+: l then SectionStatus.warning
       else .ok) := by
  simp only [classifyLines, List.any_eq_true, Bool.or_eq_true,
    List.isPrefixOf_iff_prefix, strContains_iff]

/-- C3: every section produced by `parseSections` carries the status of
the priority classification rule — `error` if any of its lines starts
with `"ERROR:"` or contains `"unavailable"`, else `warning` if any line
contains `"skipped"`, else `ok`, independently of the line's position.
In particular a section whose only flagged line contains `"skipped"`
(such as `"Quota        skipped (no token)"`) is `warning`, not `error`;
the witness instantiates that scenario. -/
theorem c3_section_status (content : Str) (s : ParsedSection)
    (h : s ∈ parseSections content) : s.status = classifySpecC3 s.lines := by
  unfold parseSections at h
  by_cases hb : jsTrim content = []
  · simp [hb] at h
  · rw [if_neg hb] at h
    obtain ⟨a, _, rfl⟩ := List.mem_map.mp h
    simpa [classifySpecC3] using classifyLines_eq_spec a.2

/-- Witness for C3: the scenario section `"Quota        skipped (no token)"`
is classified `warning`, via the claim's theorem applied at that input. -/
theorem c3_section_status_witness :
    (ParsedSection.mk (strL "Gemini") [strL "Quota        skipped (no token)"]
        SectionStatus.warning).status =
      classifySpecC3 [strL "Quota        skipped (no token)"] ∧
    classifySpecC3 [strL "Quota        skipped (no token)"] = SectionStatus.warning := by
  constructor
  · exact c3_section_status (strL "## Gemini\nQuota        skipped (no token)") _ (by decide)
  · decide

/-- The points fold of `healthScore` counts one per `ok` section and one
half per `warning` section. -/
theorem healthScore_foldl (sections : List ParsedSection) (acc : ℚ) :
    sections.foldl
      (fun acc s =>
        let acc2 := if s.status = SectionStatus.ok then acc + 1 else acc
        if s.status = SectionStatus.warning then acc2 + 1 / 2 else acc2) acc =
      acc + (okCount sections : ℚ) + (1 / 2) * (warningCount sections : ℚ) := by
  induction sections generalizing acc with
  | nil => simp [okCount, warningCount]
  | cons hd tl ih =>
    rw [List.foldl_cons, ih]
    rcases hs : hd.status <;>
      simp [okCount, warningCount, List.countP_cons, hs] <;> ring

/-- C4: `healthScore` equals the specified formula
`round(100 * (ok-count + 0.5 * warning-count) / total)` with `error`
sections contributing zero, and the empty section list scores `0`. -/
theorem c4_healthScore :
    (∀ sections, healthScore sections = healthScoreSpec sections) ∧ healthScore [] = 0 := by
  refine ⟨fun sections => ?_, by simp [healthScore]⟩
  unfold healthScore healthScoreSpec
  by_cases h : sections.length = 0
  · simp [h]
  · rw [if_neg h, if_neg h]
    rw [healthScore_foldl]
    have hlen : (sections.length : ℚ) ≠ 0 := by exact_mod_cast h
    field_simp
    ring_nf

/-- `getProviderSection` is the first case-insensitive name match. -/
theorem getProviderSection_eq_firstMatching (sections : List ParsedSection) (label : Str) :
    getProviderSection sections label = firstMatchingSection sections label := by
  unfold getProviderSection firstMatchingSection
  exact (List.filter_head? _ sections).symm

/-- The extraction loop collects exactly the per-line first captures. -/
theorem extractRemainingPercents_eq_lineCaptures (s : ParsedSection) :
    extractRemainingPercents (some s) = lineCaptures s.lines := by
  unfold lineCaptures List.reduceOption
  rw [List.filterMap_map, List.map_filterMap]
  rfl

/-- `averageRemaining` agrees with the specified rounded mean. -/
theorem averageRemaining_eq_spec (osec : Option ParsedSection) :
    averageRemaining osec = avgRemainingSpec osec := by
  cases osec with
  | none => rfl
  | some s =>
    simp only [averageRemaining, avgRemainingSpec]
    rw [extractRemainingPercents_eq_lineCaptures]
    by_cases h : lineCaptures s.lines = []
    · simp [h]
    · have hlen : ¬(lineCaptures s.lines).length = 0 := by
        simpa [List.length_eq_zero] using h
      simp [h, hlen]

/-- C5: `buildProviderSummaries` pairs each provider, in registry order,
with the first section whose name equals the label case-insensitively,
and with the rounded mean of the clamped per-line percentage captures
(`null` when the section is absent or no line matches); and a section
whose matching lines carry 80, 60 and 40 averages to 60. -/
theorem c5_buildProviderSummaries :
    (∀ providers sections,
      buildProviderSummaries providers sections =
        providers.map (fun p =>
          { provider := p
            sect := firstMatchingSection sections p.label
            avgRemaining := avgRemainingSpec (firstMatchingSection sections p.label) })) ∧
    averageRemaining (some (ParsedSection.mk (strL "Copilot")
        [strL "monthly 80% remaining", strL "weekly 60% remaining", strL "daily 40% remaining"]
        SectionStatus.ok)) = some 60 := by
  constructor
  · intro providers sections
    unfold buildProviderSummaries
    refine List.map_congr_left (fun p _ => ?_)
    simp only [getProviderSection_eq_firstMatching, averageRemaining_eq_spec]
  · have h1 : extractRemainingPercents (some (ParsedSection.mk (strL "Copilot")
        [strL "monthly 80% remaining", strL "weekly 60% remaining", strL "daily 40% remaining"]
        SectionStatus.ok)) = [80, 60, 40] := by decide
    unfold averageRemaining
    rw [h1]
    norm_num [jsRound]

/-- `List.intercalate` on two or more pieces peels off the head. -/
theorem intercalate_cons_cons {α : Type} (sep x y : List α) (ls : List (List α)) :
    List.intercalate sep (x :: y :: ls) = x ++ sep ++ List.intercalate sep (y :: ls) := by
  simp [List.intercalate]

/-- `List.intercalate` of a single piece is that piece. -/
theorem intercalate_singleton {α : Type} (sep x : List α) :
    List.intercalate sep [x] = x := by
  simp [List.intercalate]

/-- Every piece is a contiguous sublist of the intercalation. -/
theorem infix_intercalate {α : Type} (sep : List α) (ls : List (List α)) (x : List α)
    (hx : x ∈ ls) : x <:+: List.intercalate sep ls := by
  induction ls with
  | nil => cases hx
  | cons hd tl ih =>
    rcases List.mem_cons.mp hx with rfl | hmem
    · cases tl with
      | nil => rw [intercalate_singleton]
      | cons y ys =>
        rw [intercalate_cons_cons]
        exact ⟨[], sep ++ List.intercalate sep (y :: ys), by simp⟩
    · cases tl with
      | nil => cases hmem
      | cons y ys =>
        obtain ⟨s, t, hst⟩ := ih hmem
        rw [intercalate_cons_cons]
        exact ⟨hd ++ sep ++ s, t, by simp [← hst]⟩

/-- The failures list of the fan-out loop has one entry per failure
outcome. -/
theorem filterMap_failureEntry_length (results : List (Provider × QueryResult)) :
    (results.filterMap failureEntry?).length = failedCount results := by
  induction results with
  | nil => rfl
  | cons hd tl ih =>
    rcases hd with ⟨p, r⟩
    cases r <;> simp [failureEntry?, failedCount, List.countP_cons, List.filterMap_cons] <;>
      simpa [failedCount] using ih

/-- On a fully settled fan-out, `queryProviders` builds the completed
snapshot record; the shared computation behind the fan-out claims. -/
theorem queryProviders_ok (now : Nat) (providers : List Provider)
    (results : List (Provider × QueryResult))
    (hres : resolveAll providers = Except.ok results) :
    queryProviders now providers =
      { lastUpdated := some now
        status := if failedCount results = 0 then .ok else .error
        content := List.intercalate (strL "\n\n")
          (results.map (fun pr => sectionBlock pr.1 pr.2))
        message :=
          if failedCount results = 0 then []
          else natStr (failedCount results) ++ strL " provider(s) failed." } := by
  unfold queryProviders
  rw [hres]
  simp only [filterMap_failureEntry_length]

/-- C1 (amended): a completed fan-out — every provider query settled
with an outcome — builds the snapshot whose content is one block per
provider in provider order (`"## "+label+"\n"+text` on success,
`"## "+label+"\nERROR: "+message` on failure) joined with the blank-line
separator `"\n\n"`, whose status is `ok` iff zero outcomes failed,
whose message is empty on full success and `"<n> provider(s) failed."`
otherwise, and whose timestamp is set to the completion instant. -/
theorem c1_completed_fanout (now : Nat) (providers : List Provider)
    (results : List (Provider × QueryResult))
    (hres : resolveAll providers = Except.ok results) :
    queryProviders now providers =
      { lastUpdated := some now
        status := if failedCount results = 0 then .ok else .error
        content := List.intercalate (strL "\n\n")
          (results.map (fun pr => sectionBlock pr.1 pr.2))
        message :=
          if failedCount results = 0 then []
          else natStr (failedCount results) ++ strL " provider(s) failed." } :=
  queryProviders_ok now providers results hres

/-- Counterexample to C1 as stated: with two succeeding providers the
snapshot content is not the plain concatenation of the two blocks — the
fan-out joins blocks with a `"\n\n"` separator. -/
theorem c1_counterexample :
    (queryProviders 0
        [Provider.mk (strL "a") (strL "A") (Except.ok (QueryResult.success (strL "x"))),
         Provider.mk (strL "b") (strL "B") (Except.ok (QueryResult.success (strL "y")))]).content ≠
      (List.map (fun pr => sectionBlock pr.1 pr.2)
        [(Provider.mk (strL "a") (strL "A") (Except.ok (QueryResult.success (strL "x"))),
            QueryResult.success (strL "x")),
         (Provider.mk (strL "b") (strL "B") (Except.ok (QueryResult.success (strL "y"))),
            QueryResult.success (strL "y"))]).flatten := by
  decide

/-- Witness for C1: the spec scenario — three providers, one failing
with `"timeout"` — yields status `error`, message
`"1 provider(s) failed."`, the failing block `"ERROR: timeout"` in
content, and the timestamp set. -/
theorem c1_completed_fanout_witness :
    queryProviders 5
        [Provider.mk (strL "a") (strL "Alpha") (Except.ok (QueryResult.success (strL "all good"))),
         Provider.mk (strL "b") (strL "Beta") (Except.ok (QueryResult.failure (strL "timeout"))),
         Provider.mk (strL "c") (strL "Gamma") (Except.ok (QueryResult.success (strL "fine")))] =
      { lastUpdated := some 5
        status := .error
        content := strL "## Alpha\nall good\n\n## Beta\nERROR: timeout\n\n## Gamma\nfine"
        message := strL "1 provider(s) failed." } := by
  refine (c1_completed_fanout 5 _
    [(Provider.mk (strL "a") (strL "Alpha") (Except.ok (QueryResult.success (strL "all good"))),
        QueryResult.success (strL "all good")),
     (Provider.mk (strL "b") (strL "Beta") (Except.ok (QueryResult.failure (strL "timeout"))),
        QueryResult.failure (strL "timeout")),
     (Provider.mk (strL "c") (strL "Gamma") (Except.ok (QueryResult.success (strL "fine"))),
        QueryResult.success (strL "fine"))] (by decide)).trans ?_
  decide

/-- C6: a fan-out that throws before completion — some provider promise
rejects, so `Promise.all` rejects — yields the snapshot with status
`error`, empty content, the exception text as the sole message, and a
null timestamp; whereas whenever every query settles with an outcome,
the branch is not taken (the timestamp is set) and every provider's
block, failures included, appears in the content — no failure outcome
aborts collection of the others. -/
theorem c6_fanout_throw_vs_failure (now : Nat) (providers : List Provider) :
    (∀ e, resolveAll providers = Except.error e →
      queryProviders now providers =
        { lastUpdated := none, status := .error, content := [], message := e }) ∧
    (∀ results, resolveAll providers = Except.ok results →
      (queryProviders now providers).lastUpdated = some now ∧
      ∀ pr ∈ results,
        sectionBlock pr.1 pr.2 <:+: (queryProviders now providers).content) := by
  constructor
  · intro e he
    unfold queryProviders
    rw [he]
  · intro results hres
    rw [queryProviders_ok now providers results hres]
    refine ⟨rfl, fun pr hpr => ?_⟩
    exact infix_intercalate _ _ _ (List.mem_map_of_mem _ hpr)

/-- Witness for C6: a provider whose promise rejects with `"boom"`
takes the catch branch, while a resolved failure outcome `"timeout"`
leaves the timestamp set and its block inside the content. -/
theorem c6_fanout_throw_vs_failure_witness :
    queryProviders 3 [Provider.mk (strL "t") (strL "Thrower") (Except.error (strL "boom"))] =
      { lastUpdated := none, status := .error, content := [], message := strL "boom" } ∧
    (queryProviders 3
        [Provider.mk (strL "a") (strL "Alpha") (Except.ok (QueryResult.success (strL "fine"))),
         Provider.mk (strL "b") (strL "Beta") (Except.ok (QueryResult.failure (strL "timeout")))]).lastUpdated =
      some 3 ∧
    sectionBlock (Provider.mk (strL "b") (strL "Beta") (Except.ok (QueryResult.failure (strL "timeout"))))
        (QueryResult.failure (strL "timeout")) <:+:
      (queryProviders 3
        [Provider.mk (strL "a") (strL "Alpha") (Except.ok (QueryResult.success (strL "fine"))),
         Provider.mk (strL "b") (strL "Beta") (Except.ok (QueryResult.failure (strL "timeout")))]).content := by
  refine ⟨(c6_fanout_throw_vs_failure 3
      [Provider.mk (strL "t") (strL "Thrower") (Except.error (strL "boom"))]).1
      (strL "boom") (by decide), ?_, ?_⟩
  · exact ((c6_fanout_throw_vs_failure 3
      [Provider.mk (strL "a") (strL "Alpha") (Except.ok (QueryResult.success (strL "fine"))),
       Provider.mk (strL "b") (strL "Beta") (Except.ok (QueryResult.failure (strL "timeout")))]).2
      [(Provider.mk (strL "a") (strL "Alpha") (Except.ok (QueryResult.success (strL "fine"))),
          QueryResult.success (strL "fine")),
       (Provider.mk (strL "b") (strL "Beta") (Except.ok (QueryResult.failure (strL "timeout"))),
          QueryResult.failure (strL "timeout"))] (by decide)).1
  · exact ((c6_fanout_throw_vs_failure 3
      [Provider.mk (strL "a") (strL "Alpha") (Except.ok (QueryResult.success (strL "fine"))),
       Provider.mk (strL "b") (strL "Beta") (Except.ok (QueryResult.failure (strL "timeout")))]).2
      [(Provider.mk (strL "a") (strL "Alpha") (Except.ok (QueryResult.success (strL "fine"))),
          QueryResult.success (strL "fine")),
       (Provider.mk (strL "b") (strL "Beta") (Except.ok (QueryResult.failure (strL "timeout"))),
          QueryResult.failure (strL "timeout"))] (by decide)).2
      (Provider.mk (strL "b") (strL "Beta") (Except.ok (QueryResult.failure (strL "timeout"))),
        QueryResult.failure (strL "timeout")) (by decide)

/-- C7: a refresh request arriving while a fan-out cycle is in flight is
a no-op — no provider queries are issued and the state is unchanged —
and otherwise the in-flight flag is true in the state the fan-out is
dispatched from and false again after the call on every exit path,
including the path where the fan-out rejects before completion; this
holds for both `refresh` (src/index.ts) and the hook's `refreshNow`. -/
theorem c7_inflight_guard (providers : List Provider) (now : Nat)
    (st : LoopState) (stH : HookState) :
    (st.inflight = true →
      refresh providers now st =
        { issuedQueries := false, duringFanout := none, final := st }) ∧
    (st.inflight = false →
      (refresh providers now st).issuedQueries = true ∧
      (∀ d, (refresh providers now st).duringFanout = some d → d.inflight = true) ∧
      (refresh providers now st).final.inflight = false) ∧
    (stH.inflight = true →
      refreshNow providers now stH =
        { issuedQueries := false, duringFanout := none, final := stH }) ∧
    (stH.inflight = false →
      (refreshNow providers now stH).issuedQueries = true ∧
      (∀ d, (refreshNow providers now stH).duringFanout = some d → d.inflight = true) ∧
      (refreshNow providers now stH).final.inflight = false) := by
  refine ⟨fun h => ?_, fun h => ?_, fun h => ?_, fun h => ?_⟩
  · simp [refresh, h]
  · unfold refresh
    rw [if_neg (by simp [h])]
    refine ⟨rfl, fun d hd => ?_, rfl⟩
    cases hd
    rfl
  · simp [refreshNow, h]
  · unfold refreshNow
    rw [if_neg (by simp [h])]
    refine ⟨rfl, fun d hd => ?_, rfl⟩
    cases hd
    rfl

/-- Witness for C7: with one concrete provider, a call on an in-flight
state is a no-op, and a call on an idle state dispatches with the flag
set and returns with it cleared — also when the single provider's
promise rejects. -/
theorem c7_inflight_guard_witness :
    refresh [Provider.mk (strL "a") (strL "Alpha") (Except.ok (QueryResult.success (strL "ok")))] 1
        { inflight := true, lastUpdated := none, status := .idle, content := [],
          message := strL "Press r to refresh." } =
      { issuedQueries := false, duringFanout := none,
        final := { inflight := true, lastUpdated := none, status := .idle,
                   content := [], message := strL "Press r to refresh." } } ∧
    (refresh [Provider.mk (strL "t") (strL "Thrower") (Except.error (strL "boom"))] 1
        initialLoopState).issuedQueries = true ∧
    (refresh [Provider.mk (strL "t") (strL "Thrower") (Except.error (strL "boom"))] 1
        initialLoopState).final.inflight = false ∧
    (refreshNow [Provider.mk (strL "a") (strL "Alpha") (Except.ok (QueryResult.success (strL "ok")))] 1
        { inflight := false,
          app := { lastUpdated := none, status := .idle, content := [],
                   message := strL "Press r to refresh." } }).final.inflight = false := by
  refine ⟨(c7_inflight_guard _ 1 _
      { inflight := true,
        app := { lastUpdated := none, status := .idle, content := [], message := [] } }).1 rfl,
    ?_, ?_, ?_⟩
  · exact ((c7_inflight_guard
      [Provider.mk (strL "t") (strL "Thrower") (Except.error (strL "boom"))] 1
      initialLoopState
      { inflight := true,
        app := { lastUpdated := none, status := .idle, content := [], message := [] } }).2.1
      rfl).1
  · exact ((c7_inflight_guard
      [Provider.mk (strL "t") (strL "Thrower") (Except.error (strL "boom"))] 1
      initialLoopState
      { inflight := true,
        app := { lastUpdated := none, status := .idle, content := [], message := [] } }).2.1
      rfl).2.2
  · exact ((c7_inflight_guard
      [Provider.mk (strL "a") (strL "Alpha") (Except.ok (QueryResult.success (strL "ok")))] 1
      initialLoopState
      { inflight := false,
        app := { lastUpdated := none, status := .idle, content := [],
                 message := strL "Press r to refresh." } }).2.2.2 rfl).2.2

/-- The double-modulo normalization of `setSelectedIndex` on a
nonnegative index reduces to plain `Nat` modulo. -/
theorem setSelectedIndexFn_cast (n x : Nat) (hn : n ≠ 0) :
    setSelectedIndexFn n (x : ℤ) = x % n := by
  unfold setSelectedIndexFn
  rw [if_neg hn]
  have h1 : (x : ℤ).tmod (n : ℤ) = ((x % n : Nat) : ℤ) := rfl
  rw [h1]
  have h2 : ((x % n : Nat) : ℤ) + (n : ℤ) = ((x % n + n : Nat) : ℤ) := by push_cast; ring
  rw [h2]
  have h3 : ((x % n + n : Nat) : ℤ).tmod (n : ℤ) = (((x % n + n) % n : Nat) : ℤ) := rfl
  rw [h3, Int.toNat_natCast]
  rw [Nat.add_mod_right, Nat.mod_mod]

/-- `nextProvider` advances cyclically. -/
theorem nextProviderIdx_eq (n i : Nat) (hn : 0 < n) :
    nextProviderIdx n i = (i + 1) % n := by
  unfold nextProviderIdx
  rw [Nat.max_eq_right hn]
  have h1 : ((i : ℤ) + 1).tmod (n : ℤ) = (((i + 1) % n : Nat) : ℤ) := by
    have : ((i : ℤ) + 1) = ((i + 1 : Nat) : ℤ) := by push_cast; ring
    rw [this]; rfl
  rw [h1, setSelectedIndexFn_cast _ _ (by omega)]
  exact Nat.mod_mod _ _

/-- `prevProvider` retreats cyclically. -/
theorem prevProviderIdx_eq (n i : Nat) (hn : 0 < n) :
    prevProviderIdx n i = (i + n - 1) % n := by
  unfold prevProviderIdx
  rw [Nat.max_eq_right hn]
  have h1 : ((i : ℤ) - 1 + (n : ℤ)).tmod (n : ℤ) = (((i + n - 1) % n : Nat) : ℤ) := by
    have : (i : ℤ) - 1 + (n : ℤ) = ((i + n - 1 : Nat) : ℤ) := by omega
    rw [this]; rfl
  rw [h1, setSelectedIndexFn_cast _ _ (by omega)]
  exact Nat.mod_mod _ _

/-- C8: for provider count `n > 0` and selected index `i < n`, the
next-provider key moves selection to `(i + 1) % n`, the previous-provider
key to `(i - 1 + n) % n`, and storing any changed selection resets the
detail scroll offset to `0`. -/
theorem c8_selection_cycling (n : Nat) (v : ViewState) (hn : 0 < n)
    (_hi : v.selectedIndex < n) :
    (nextProviderKey n v).selectedIndex = (v.selectedIndex + 1) % n ∧
    (prevProviderKey n v).selectedIndex = (v.selectedIndex + n - 1) % n ∧
    (∀ j, j ≠ v.selectedIndex → (applySelect v j).detailOffset = 0) := by
  refine ⟨?_, ?_, fun j hj => ?_⟩
  · show nextProviderIdx n v.selectedIndex = _
    exact nextProviderIdx_eq n v.selectedIndex hn
  · show prevProviderIdx n v.selectedIndex = _
    exact prevProviderIdx_eq n v.selectedIndex hn
  · simp [applySelect, hj]

/-- Witness for C8: with three providers, next from index 2 wraps to 0,
previous from index 0 wraps to 2, and a changed selection zeroes the
scroll offset. -/
theorem c8_selection_cycling_witness :
    (nextProviderKey 3 (ViewState.mk 2 7)).selectedIndex = 0 ∧
    (prevProviderKey 3 (ViewState.mk 0 7)).selectedIndex = 2 ∧
    (applySelect (ViewState.mk 0 7) 2).detailOffset = 0 := by
  refine ⟨?_, ?_, ?_⟩
  · exact ((c8_selection_cycling 3 (ViewState.mk 2 7) (by decide) (by decide)).1).trans
      (by decide)
  · exact ((c8_selection_cycling 3 (ViewState.mk 0 7) (by decide) (by decide)).2.1).trans
      (by decide)
  · exact (c8_selection_cycling 3 (ViewState.mk 0 7) (by decide) (by decide)).2.2 2
      (by decide)

/-- Any two sufficient fuels compute the same grouping. -/
theorem specMarkedWithFuel_congr (nameOf : Str → Str) :
    ∀ (fuel1 fuel2 : Nat) (lines : List Str), lines.length ≤ fuel1 → lines.length ≤ fuel2 →
      specMarkedWithFuel nameOf fuel1 lines = specMarkedWithFuel nameOf fuel2 lines := by
  intro fuel1
  induction fuel1 with
  | zero =>
    intro fuel2 lines h1 _
    rw [List.length_eq_zero.mp (Nat.le_zero.mp h1)]
    cases fuel2 <;> rfl
  | succ fuel1 ih =>
    intro fuel2 lines h1 h2
    cases lines with
    | nil => cases fuel2 <;> rfl
    | cons m rest =>
      cases fuel2 with
      | zero => simp at h2
      | succ fuel2 =>
        show (nameOf m, _) :: _ = (nameOf m, _) :: _
        have hd := (rest.dropWhile_sublist (fun l => !isMarkerLine l)).length_le
        simp only [List.length_cons] at h1 h2
        rw [ih fuel2 _ (by omega) (by omega)]

/-- Unfolding rule of the declarative grouping at a marker head. -/
theorem specMarkedWith_cons (nameOf : Str → Str) (m : Str) (rest : List Str) :
    specMarkedWith nameOf (m :: rest) =
      (nameOf m, rest.takeWhile (fun l => !isMarkerLine l)) ::
        specMarkedWith nameOf (rest.dropWhile (fun l => !isMarkerLine l)) := by
  show specMarkedWithFuel nameOf (m :: rest).length (m :: rest) = _
  have hd := (rest.dropWhile_sublist (fun l => !isMarkerLine l)).length_le
  simp only [List.length_cons, specMarkedWithFuel]
  rw [specMarkedWithFuel_congr nameOf rest.length
    (rest.dropWhile (fun l => !isMarkerLine l)).length _ (by omega) (by omega)]
  rfl

/-- The closed-sections accumulator of the parser loop factors out. -/
theorem sectionLoop_acc (lines : List Str) :
    ∀ (active : Option (Str × List Str)) (acc : List (Str × List Str)),
      sectionLoop active acc lines = acc ++ sectionLoop active [] lines := by
  induction lines with
  | nil => intro active acc; cases active <;> simp [sectionLoop]
  | cons line rest ih =>
    intro active acc
    by_cases h : isMarkerLine line = true
    · cases active with
      | none =>
        simp only [sectionLoop, h, if_true, Option.toList, List.append_nil]
        rw [ih _ acc]
      | some a =>
        simp only [sectionLoop, h, if_true, Option.toList]
        rw [ih _ (acc ++ [a]), ih _ ([] ++ [a])]
        simp
    · cases active with
      | none =>
        simp only [sectionLoop, h, if_false]
        rw [ih _ acc, ih _ []]
        simp
      | some a =>
        simp only [sectionLoop, h, if_false]
        rw [ih _ acc, ih _ []]
        simp

/-- The parser loop with an open section collects the following
non-marker lines into it and then proceeds marker by marker. -/
theorem sectionLoop_some (lines : List Str) :
    ∀ (name : Str) (ls : List Str),
      sectionLoop (some (name, ls)) [] lines =
        (name, ls ++ lines.takeWhile (fun l => !isMarkerLine l)) ::
          specMarkedWith trimName (lines.dropWhile (fun l => !isMarkerLine l)) := by
  induction lines with
  | nil =>
    intro name ls
    simp [sectionLoop, specMarkedWith, specMarkedWithFuel]
  | cons line rest ih =>
    intro name ls
    by_cases h : isMarkerLine line = true
    · simp only [sectionLoop, h, if_true, Option.toList]
      rw [sectionLoop_acc, ih _ []]
      simp [List.takeWhile_cons, List.dropWhile_cons, h, specMarkedWith_cons, trimName]
    · simp only [sectionLoop, h, if_false]
      rw [ih _ (ls ++ [line])]
      simp [List.takeWhile_cons, List.dropWhile_cons, h]

/-- The parser loop started empty computes the declarative split with
trimmed section names. -/
theorem sectionLoop_none (lines : List Str) :
    sectionLoop none [] lines = specSectionsWith trimName lines := by
  cases lines with
  | nil => simp [sectionLoop, specSectionsWith, specMarkedWith, specMarkedWithFuel]
  | cons line rest =>
    by_cases h : isMarkerLine line = true
    · simp only [sectionLoop, h, if_true, Option.toList, List.append_nil]
      rw [sectionLoop_some]
      simp [specSectionsWith, List.takeWhile_cons, List.dropWhile_cons, h,
        specMarkedWith_cons, trimName]
    · simp only [sectionLoop, h, if_false]
      rw [sectionLoop_some]
      simp [specSectionsWith, List.takeWhile_cons, List.dropWhile_cons, h]

/-- The two classification formulations coincide. -/
theorem classifyLines_eq_specC3 (lines : List Str) :
    classifyLines lines = classifySpecC3 lines :=
  classifyLines_eq_spec lines

/-- C2 (amended): `parseSections` splits on newline; each line beginning
with `"## "` opens a new Section named by the remainder of that line
with surrounding whitespace trimmed and closes the previous open
Section; non-marker lines before any marker form an implicit `"General"`
Section; every non-marker line is appended verbatim, in order, to the
active Section, blank lines included; and content that is empty or
consists only of whitespace yields the empty Section list. -/
theorem c2_parseSections_amended (content : Str) :
    parseSections content =
      if jsTrim content = [] then []
      else
        (specSectionsWith trimName (splitNl content)).map
          (fun s => { name := s.1, lines := s.2, status := classifySpecC3 s.2 }) := by
  unfold parseSections
  by_cases h : jsTrim content = []
  · simp [h]
  · rw [if_neg h, if_neg h, sectionLoop_none]
    exact List.map_congr_left (fun a _ => by rw [classifyLines_eq_specC3])

/-- Counterexample to C2 as stated: on the whitespace-only content `" "`
the parser returns the empty list (the source trims before the
empty-content check), and on `"## A "` the parser trims the section name
to `"A"` — both against the claim's literal reading. -/
theorem c2_counterexample :
    parseSectionsClaimC2 (strL " ") ≠ parseSections (strL " ") ∧
    parseSectionsClaimC2 (strL "## A ") ≠ parseSections (strL "## A ") := by
  decide

/-- An append with a non-empty left part is non-empty. -/
theorem isEmpty_append_left (a b : Str) (h : a.isEmpty = false) :
    (a ++ b).isEmpty = false := by
  cases a <;> simp_all [List.isEmpty]

/-- `filter(Boolean).join("\n")` on `[a, "", b, "", c]` with all of
`a`, `b`, `c` non-empty. -/
theorem joinNonEmpty_five (a b c : Str) (ha : a.isEmpty = false)
    (hb : b.isEmpty = false) (hc : c.isEmpty = false) :
    joinNonEmpty [a, [], b, [], c] = a ++ nlChar :: (b ++ nlChar :: c) := by
  cases a with
  | nil => simp [List.isEmpty] at ha
  | cons x xs =>
    cases b with
    | nil => simp [List.isEmpty] at hb
    | cons y ys =>
      cases c with
      | nil => simp [List.isEmpty] at hc
      | cons z zs =>
        simp [joinNonEmpty, intercalate_cons_cons, intercalate_singleton]

/-- `filter(Boolean).join("\n")` on `[a, "", "", "", c]` with `a`, `c`
non-empty. -/
theorem joinNonEmpty_three (a c : Str) (ha : a.isEmpty = false) (hc : c.isEmpty = false) :
    joinNonEmpty [a, [], [], [], c] = a ++ nlChar :: c := by
  cases a with
  | nil => simp [List.isEmpty] at ha
  | cons x xs =>
    cases c with
    | nil => simp [List.isEmpty] at hc
    | cons z zs =>
      simp [joinNonEmpty, intercalate_cons_cons, intercalate_singleton]

/-- An append with a non-empty right part is non-empty. -/
theorem isEmpty_append_right (a b : Str) (h : b.isEmpty = false) :
    (a ++ b).isEmpty = false := by
  cases a <;> simp_all [List.isEmpty]

/-- A once-mode section line is never the empty string. -/
theorem c9SectionLine_isEmpty (s : ParsedSection) : (c9SectionLine s).isEmpty = false := by
  unfold c9SectionLine
  apply isEmpty_append_right
  cases s.status <;> decide

/-- The once-mode header is never the empty string. -/
theorem c9Header_isEmpty (snapshot : QuerySnapshot) :
    (c9Header snapshot).isEmpty = false := by
  unfold c9Header
  rw [intercalate_cons_cons]
  exact isEmpty_append_left _ _ (isEmpty_append_left _ _ (by decide))

/-- The once-mode section summary is non-empty when some section was
parsed. -/
theorem c9Summary_isEmpty (sections : List ParsedSection) (h : sections ≠ []) :
    (List.intercalate [nlChar] (sections.map c9SectionLine)).isEmpty = false := by
  cases sections with
  | nil => exact absurd rfl h
  | cons s0 rest =>
    cases rest with
    | nil =>
      rw [List.map_cons, List.map_nil, intercalate_singleton]
      exact c9SectionLine_isEmpty s0
    | cons s1 rest2 =>
      rw [List.map_cons, List.map_cons, intercalate_cons_cons]
      exact isEmpty_append_left _ _ (isEmpty_append_left _ _ (c9SectionLine_isEmpty s0))

/-- C9 (amended): the once mode of the current entry point performs one
fan-out and prints `renderOnce` of its snapshot followed by a newline,
exiting `1` exactly when the overall status is `error` (the legacy
`runOnce` shares the exit-code rule); `renderOnce` prints the header
line with state, updated time and health percentage, then one
`name: STATUSLABEL` line per parsed section, then the raw content — or
the message in place of empty content. -/
theorem c9_once_mode (now : Nat) (providers : List Provider) (snapshot : QuerySnapshot) :
    onceMain now providers =
      (renderOnce (queryProviders now providers) ++ [nlChar],
       if (queryProviders now providers).status = .error then 1 else 0) ∧
    ((onceMain now providers).2 = 1 ↔ (queryProviders now providers).status = .error) ∧
    ((runOnceMain now providers).2 = 1 ↔
      (refresh providers now initialLoopState).final.status = .error) ∧
    (snapshot.content ≠ [] → parseSections snapshot.content ≠ [] →
      renderOnce snapshot =
        c9Header snapshot ++ nlChar ::
          (List.intercalate [nlChar] ((parseSections snapshot.content).map c9SectionLine) ++
            nlChar :: snapshot.content)) ∧
    (snapshot.content = [] → snapshot.message ≠ [] →
      renderOnce snapshot = c9Header snapshot ++ nlChar :: snapshot.message) := by
  refine ⟨rfl, ?_, ?_, ?_, ?_⟩
  · by_cases hs : (queryProviders now providers).status = .error <;> simp [onceMain, hs]
  · by_cases hs : (refresh providers now initialLoopState).final.status = .error <;>
      simp [runOnceMain, hs]
  · intro hc hsec
    have hce : snapshot.content.isEmpty = false := by
      simpa [List.isEmpty_iff] using hc
    simp only [renderOnce, hce, Bool.false_eq_true, if_false]
    rw [show (fun (s : ParsedSection) => s.name ++ strL ": " ++ statusLabel s.status) =
      c9SectionLine from rfl]
    exact joinNonEmpty_five _ _ _ (c9Header_isEmpty snapshot)
      (c9Summary_isEmpty _ hsec) hce
  · intro hc hm
    have hme : snapshot.message.isEmpty = false := by
      simpa [List.isEmpty_iff] using hm
    have hsec : parseSections snapshot.content = [] := by
      rw [hc]; rfl
    have hsum : List.intercalate [nlChar]
        ((parseSections snapshot.content).map
          (fun s => s.name ++ strL ": " ++ statusLabel s.status)) = [] := by
      rw [hsec]
      simp [List.intercalate]
    have hbody : (if snapshot.content.isEmpty = true then snapshot.message
        else snapshot.content) = snapshot.message := by
      rw [hc]
      rfl
    simp only [renderOnce]
    rw [hsum, hbody]
    exact joinNonEmpty_three _ _ (c9Header_isEmpty snapshot) hme

set_option maxRecDepth 4000 in
/-- Counterexample to C9 as stated: the cited legacy `runOnce`
(src/index.ts) prints a header without any health percentage and no
per-section status line — its once-mode output for one healthy provider
is just the two-field header, a blank line, and the raw content. -/
theorem c9_counterexample :
    (runOnceMain 3723
        [Provider.mk (strL "c") (strL "Copilot")
          (Except.ok (QueryResult.success (strL "80% remaining")))]).1 =
      strL "Agent Status TUI | status=OK | updated=01:02:03\n\n## Copilot\n80% remaining\n" ∧
    ¬(strL "health=" <:+:
      (runOnceMain 3723
        [Provider.mk (strL "c") (strL "Copilot")
          (Except.ok (QueryResult.success (strL "80% remaining")))]).1) ∧
    ¬(strL "Copilot: " <:+:
      (runOnceMain 3723
        [Provider.mk (strL "c") (strL "Copilot")
          (Except.ok (QueryResult.success (strL "80% remaining")))]).1) := by
  refine ⟨by decide, ?_, ?_⟩ <;> decide

/-- Witness for C9: for one concrete healthy provider the current once
mode prints header, section line and content as the amended claim
states, applied through the claim's theorem. -/
theorem c9_once_mode_witness :
    renderOnce (queryProviders 3723
        [Provider.mk (strL "c") (strL "Copilot")
          (Except.ok (QueryResult.success (strL "80% remaining")))]) =
      c9Header (queryProviders 3723
        [Provider.mk (strL "c") (strL "Copilot")
          (Except.ok (QueryResult.success (strL "80% remaining")))]) ++ nlChar ::
        (List.intercalate [nlChar]
          ((parseSections (queryProviders 3723
            [Provider.mk (strL "c") (strL "Copilot")
              (Except.ok (QueryResult.success (strL "80% remaining")))]).content).map
            c9SectionLine) ++
          nlChar :: (queryProviders 3723
            [Provider.mk (strL "c") (strL "Copilot")
              (Except.ok (QueryResult.success (strL "80% remaining")))]).content) ∧
    ((onceMain 3723
        [Provider.mk (strL "c") (strL "Copilot")
          (Except.ok (QueryResult.success (strL "80% remaining")))]).2 = 1 ↔
      (queryProviders 3723
        [Provider.mk (strL "c") (strL "Copilot")
          (Except.ok (QueryResult.success (strL "80% remaining")))]).status = .error) :=
  ⟨(c9_once_mode 3723
      [Provider.mk (strL "c") (strL "Copilot")
        (Except.ok (QueryResult.success (strL "80% remaining")))]
      (queryProviders 3723
        [Provider.mk (strL "c") (strL "Copilot")
          (Except.ok (QueryResult.success (strL "80% remaining")))])).2.2.2.1
      (by decide) (by decide),
   (c9_once_mode 3723
      [Provider.mk (strL "c") (strL "Copilot")
        (Except.ok (QueryResult.success (strL "80% remaining")))]
      (queryProviders 3723
        [Provider.mk (strL "c") (strL "Copilot")
          (Except.ok (QueryResult.success (strL "80% remaining")))])).2.1⟩

/-- Splitting never returns the empty piece list. -/
theorem splitNl_ne_nil (s : Str) : splitNl s ≠ [] :=
  List.splitOnP_ne_nil _ s

/-- No piece of a newline split contains a newline. -/
theorem mem_splitNl_noNl : ∀ (s : Str), ∀ piece ∈ splitNl s, nlChar ∉ piece := by
  intro s
  induction s with
  | nil =>
    intro piece hm
    rw [show splitNl [] = [[]] from rfl] at hm
    simp only [List.mem_singleton] at hm
    simp [hm]
  | cons c rest ih =>
    intro piece hm
    rw [show splitNl (c :: rest) = List.splitOnP (· == nlChar) (c :: rest) from rfl,
      List.splitOnP_cons] at hm
    by_cases hc : (c == nlChar) = true
    · rw [if_pos hc] at hm
      rcases List.mem_cons.mp hm with rfl | hmem
      · simp
      · exact ih piece hmem
    · rw [if_neg hc] at hm
      rcases hsp : splitNl rest with _ | ⟨h0, t⟩
      · exact absurd hsp (splitNl_ne_nil rest)
      · rw [show List.splitOnP (· == nlChar) rest = splitNl rest from rfl, hsp,
          List.modifyHead_cons] at hm
        rcases List.mem_cons.mp hm with rfl | hmem
        · intro hnl
          rcases List.mem_cons.mp hnl with rfl | hnl2
          · simp at hc
          · exact ih h0 (hsp ▸ List.mem_cons_self h0 t) hnl2
        · exact ih piece (hsp ▸ List.mem_cons_of_mem h0 hmem)

/-- Splitting a string that opens with a newline-free prefix followed by
a newline peels that prefix off as the first piece. -/
theorem splitNl_first (xs as : Str) (h : nlChar ∉ xs) :
    splitNl (xs ++ nlChar :: as) = xs :: splitNl as :=
  List.splitOnP_first _ xs
    (fun x hx => by
      simp only [beq_iff_eq]
      exact fun he => h (he ▸ hx)) nlChar (by simp) as

/-- Prepending a newline-free string rewrites only the first piece of the
split. -/
theorem splitNl_modifyHead (a b : Str) (ha : nlChar ∉ a) :
    splitNl (a ++ b) = (splitNl b).modifyHead (a ++ ·) := by
  induction a with
  | nil =>
    rcases hsp : splitNl b with _ | ⟨h0, t⟩
    · exact absurd hsp (splitNl_ne_nil b)
    · rw [List.nil_append, hsp, List.modifyHead_cons]
      simp
  | cons c a ih =>
    have hc : (c == nlChar) = false := by
      simp only [beq_eq_false_iff_ne, ne_eq]
      exact fun he => ha (List.mem_cons.mpr (Or.inl he.symm))
    have ha2 : nlChar ∉ a := fun hx => ha (List.mem_cons_of_mem c hx)
    rw [List.cons_append,
      show splitNl (c :: (a ++ b)) = List.splitOnP (· == nlChar) (c :: (a ++ b)) from rfl,
      List.splitOnP_cons, if_neg (by simp [hc]),
      show List.splitOnP (· == nlChar) (a ++ b) = splitNl (a ++ b) from rfl, ih ha2]
    rcases hsp : splitNl b with _ | ⟨h0, t⟩
    · exact absurd hsp (splitNl_ne_nil b)
    · simp

/-- A provider's block is its marker line, a newline, and its body. -/
theorem sectionBlock_eq (p : Provider) (r : QueryResult) :
    sectionBlock p r = blockMarkerLine p ++ nlChar :: blockBody r := by
  cases r with
  | success out =>
    simp [sectionBlock, blockMarkerLine, blockBody, List.append_assoc, nlChar]
  | failure err =>
    simp only [sectionBlock, blockMarkerLine, blockBody,
      show strL "\nERROR: " = nlChar :: strL "ERROR: " from rfl, List.append_assoc,
      List.cons_append]

/-- The marker line of a block never contains a newline when the label
does not. -/
theorem blockMarkerLine_noNl (p : Provider) (hl : nlChar ∉ p.label) :
    nlChar ∉ blockMarkerLine p := by
  unfold blockMarkerLine
  intro hmem
  rcases List.mem_append.mp hmem with hmem2 | hmem2
  · revert hmem2
    decide
  · exact hl hmem2

/-- Splitting a block yields the marker line and then the body's lines. -/
theorem splitNl_sectionBlock (p : Provider) (r : QueryResult) (hl : nlChar ∉ p.label) :
    splitNl (sectionBlock p r) = blockMarkerLine p :: splitNl (blockBody r) := by
  rw [sectionBlock_eq]
  exact splitNl_first _ _ (blockMarkerLine_noNl p hl)

/-- A block's marker line passes the marker test. -/
theorem isMarker_blockMarkerLine (p : Provider) :
    isMarkerLine (blockMarkerLine p) = true := by
  unfold isMarkerLine blockMarkerLine
  rw [List.isPrefixOf_iff_prefix]
  exact List.prefix_append _ _

/-- The parsed name of a block's marker line is the trimmed label. -/
theorem trimName_blockMarkerLine (p : Provider) :
    trimName (blockMarkerLine p) = jsTrim p.label := by
  unfold trimName blockMarkerLine
  congr 1

/-- No line of a block body is a marker line when no line of the raw
outcome text is. -/
theorem blockBody_lines_nonmarker (r : QueryResult)
    (hb : ∀ l ∈ splitNl (outcomeBody r), isMarkerLine l = false) :
    ∀ l ∈ splitNl (blockBody r), isMarkerLine l = false := by
  cases r with
  | success out => simpa [blockBody, outcomeBody] using hb
  | failure err =>
    intro l hl
    rw [show blockBody (QueryResult.failure err) = strL "ERROR: " ++ err from rfl,
      splitNl_modifyHead _ _ (by decide)] at hl
    rcases hsp : splitNl err with _ | ⟨h0, t⟩
    · exact absurd hsp (splitNl_ne_nil err)
    · rw [hsp, List.modifyHead_cons] at hl
      rcases List.mem_cons.mp hl with rfl | hmem
      · rfl
      · have hmem2 : l ∈ splitNl err := by
          rw [hsp]
          exact List.mem_cons_of_mem h0 hmem
        exact hb l hmem2

/-- Rejoining the pieces of a newline split restores the string. -/
theorem intercalate_splitNl (b : Str) : [nlChar].intercalate (splitNl b) = b :=
  List.intercalate_splitOn b nlChar

/-- Joining two non-empty piece lists with newlines splices in a single
newline at the seam. -/
theorem intercalate_nl_append (L1 L2 : List Str) (h1 : L1 ≠ []) (h2 : L2 ≠ []) :
    [nlChar].intercalate (L1 ++ L2) =
      [nlChar].intercalate L1 ++ nlChar :: [nlChar].intercalate L2 := by
  induction L1 with
  | nil => exact absurd rfl h1
  | cons a L1 ih =>
    cases L1 with
    | nil =>
      cases L2 with
      | nil => exact absurd rfl h2
      | cons b L2 =>
        rw [List.singleton_append, intercalate_cons_cons, intercalate_singleton]
        simp
    | cons a2 t =>
      have ih2 := ih (by simp)
      simp only [List.cons_append] at ih2 ⊢
      rw [intercalate_cons_cons, intercalate_cons_cons, ih2]
      simp

/-- Members of a blank-separated concatenation of piece lists are either
a blank or a member of some piece list. -/
theorem mem_intercalate_blank (LS : List (List Str)) (l : Str)
    (hl : l ∈ List.intercalate [[]] LS) : l = [] ∨ ∃ L ∈ LS, l ∈ L := by
  induction LS with
  | nil => simp [List.intercalate] at hl
  | cons x LS ih =>
    cases LS with
    | nil =>
      rw [intercalate_singleton] at hl
      exact Or.inr ⟨x, by simp, hl⟩
    | cons y t =>
      rw [intercalate_cons_cons] at hl
      rcases List.mem_append.mp hl with hm | hm
      · rcases List.mem_append.mp hm with hm2 | hm2
        · exact Or.inr ⟨x, by simp, hm2⟩
        · simp only [List.mem_singleton] at hm2
          exact Or.inl hm2
      · rcases ih hm with hm2 | ⟨L, hL, hml⟩
        · exact Or.inl hm2
        · exact Or.inr ⟨L, List.mem_cons_of_mem _ hL, hml⟩

/-- A blank-separated concatenation headed by a split is non-empty. -/
theorem intercalate_blank_ne_nil (b : Str) (LS : List (List Str)) :
    List.intercalate [[]] (splitNl b :: LS) ≠ [] := by
  cases LS with
  | nil =>
    rw [intercalate_singleton]
    exact splitNl_ne_nil b
  | cons y t =>
    rw [intercalate_cons_cons]
    rcases hsp : splitNl b with _ | ⟨h0, t2⟩
    · exact absurd hsp (splitNl_ne_nil b)
    · simp

/-- The fan-out content, blocks joined by blank lines, is the newline
join of the per-block line lists separated by blank lines. -/
theorem intercalate_blocks_join (blocks : List Str) (hne : blocks ≠ []) :
    List.intercalate (strL "\n\n") blocks =
      [nlChar].intercalate (List.intercalate [[]] (blocks.map splitNl)) := by
  induction blocks with
  | nil => exact absurd rfl hne
  | cons b bs ih =>
    cases bs with
    | nil =>
      rw [List.map_cons, List.map_nil, intercalate_singleton, intercalate_singleton]
      exact (List.intercalate_splitOn b nlChar).symm
    | cons b2 t =>
      have ih2 := ih (by simp)
      have hRest : List.intercalate [[]] (List.map splitNl (b2 :: t)) ≠ [] := by
        rw [List.map_cons]
        exact intercalate_blank_ne_nil b2 _
      rcases hr : List.intercalate [[]] (List.map splitNl (b2 :: t)) with _ | ⟨r0, rt⟩
      · exact absurd hr hRest
      · calc
          List.intercalate (strL "\n\n") (b :: b2 :: t)
              = b ++ strL "\n\n" ++ List.intercalate (strL "\n\n") (b2 :: t) :=
            intercalate_cons_cons _ _ _ _
          _ = b ++ strL "\n\n" ++ [nlChar].intercalate (r0 :: rt) := by
            rw [ih2, hr]
          _ = [nlChar].intercalate (splitNl b ++ ([] :: r0 :: rt)) := by
            rw [intercalate_nl_append _ _ (splitNl_ne_nil b) (by simp),
              intercalate_splitNl, intercalate_cons_cons]
            simp [show strL "\n\n" = [nlChar, nlChar] from rfl]
          _ = [nlChar].intercalate
              (List.intercalate [[]] (List.map splitNl (b :: b2 :: t))) := by
            rw [List.map_cons, List.map_cons, intercalate_cons_cons]
            rw [List.map_cons] at hr
            rw [hr]
            simp

/-- A blank-separated block-line list opens with the first marker line. -/
theorem blocksLines_head (q : Str × List Str) (qs : List (Str × List Str)) :
    ∃ tail, List.intercalate [[]] ((q :: qs).map (fun pr => pr.1 :: pr.2)) =
      q.1 :: tail := by
  cases qs with
  | nil =>
    rw [List.map_cons, List.map_nil, intercalate_singleton]
    exact ⟨q.2, rfl⟩
  | cons q2 t =>
    rw [List.map_cons, List.map_cons, intercalate_cons_cons]
    exact ⟨q.2 ++ [[]] ++
      List.intercalate [[]] ((q2.1 :: q2.2) :: t.map (fun pr => pr.1 :: pr.2)),
      by simp⟩

/-- Skipping the non-marker lines of a block body together with the
blank separator lands on the next marker line. -/
theorem dropWhile_body_sep (body : List Str) (next : Str) (tail : List Str)
    (hbody : ∀ l ∈ body, isMarkerLine l = false) (hnext : isMarkerLine next = true) :
    (body ++ ([] : Str) :: next :: tail).dropWhile (fun l => !isMarkerLine l) =
      next :: tail := by
  induction body with
  | nil =>
    have h0 : isMarkerLine ([] : Str) = false := rfl
    rw [List.nil_append, List.dropWhile_cons]
    simp [h0, hnext, List.dropWhile_cons]
  | cons b bs ih =>
    rw [List.cons_append, List.dropWhile_cons]
    have hb : isMarkerLine b = false := hbody b (List.mem_cons_self b bs)
    rw [hb]
    simpa using ih (fun l hl => hbody l (List.mem_cons_of_mem b hl))

/-- Grouping the blank-separated marker blocks yields one section per
block, named by the trimmed marker remainder, in block order. -/
theorem specMarked_blocks :
    ∀ (pairs : List (Str × List Str)),
      (∀ pr ∈ pairs, isMarkerLine pr.1 = true) →
      (∀ pr ∈ pairs, ∀ l ∈ pr.2, isMarkerLine l = false) →
      (specMarkedWith trimName
          (List.intercalate [[]] (pairs.map (fun pr => pr.1 :: pr.2)))).map Prod.fst =
        pairs.map (fun pr => trimName pr.1) := by
  intro pairs
  induction pairs with
  | nil => intro _ _; rfl
  | cons hd tl ih =>
    intro hmark hbody
    cases tl with
    | nil =>
      rw [List.map_cons, List.map_nil, intercalate_singleton, specMarkedWith_cons]
      have hdrop : (hd.2).dropWhile (fun l => !isMarkerLine l) = [] := by
        rw [List.dropWhile_eq_nil_iff]
        intro x hx
        simp [hbody hd (List.mem_cons_self hd []) x hx]
      rw [hdrop]
      rfl
    | cons hd2 tl2 =>
      obtain ⟨tail0, htail⟩ := blocksLines_head hd2 tl2
      have htail2 := htail
      rw [List.map_cons] at htail2
      have hassoc : List.intercalate [[]]
          ((hd :: hd2 :: tl2).map (fun pr => pr.1 :: pr.2)) =
          hd.1 :: (hd.2 ++ ([] : Str) :: hd2.1 :: tail0) := by
        rw [List.map_cons, List.map_cons, intercalate_cons_cons, htail2]
        simp
      rw [hassoc, specMarkedWith_cons,
        dropWhile_body_sep hd.2 hd2.1 tail0
          (hbody hd (List.mem_cons_self hd _))
          (hmark hd2 (List.mem_cons_of_mem hd (List.mem_cons_self hd2 tl2))),
        ← htail, List.map_cons,
        ih (fun pr hpr => hmark pr (List.mem_cons_of_mem hd hpr))
          (fun pr hpr => hbody pr (List.mem_cons_of_mem hd hpr))]
      rfl

/-- `Promise.all` pairs each provider with its own outcome: the settled
result list projects back to the provider list. -/
theorem resolveAll_fst (providers : List Provider)
    (results : List (Provider × QueryResult))
    (hres : resolveAll providers = Except.ok results) :
    results.map Prod.fst = providers := by
  induction providers generalizing results with
  | nil =>
    rw [show resolveAll [] = Except.ok [] from rfl] at hres
    injection hres with h
    rw [← h]
    rfl
  | cons p ps ih =>
    rw [resolveAll] at hres
    cases hq : p.query with
    | error e => rw [hq] at hres; cases hres
    | ok r =>
      rw [hq] at hres
      cases hrest : resolveAll ps with
      | error e => rw [hrest] at hres; cases hres
      | ok rs =>
        rw [hrest] at hres
        injection hres with h
        rw [← h, List.map_cons, ih rs hrest]

/-- A string containing a non-whitespace character survives trimming. -/
theorem jsTrim_ne_nil (s : Str) (c : Char) (hc : c ∈ s) (hcs : isJsSpace c = false) :
    jsTrim s ≠ [] := by
  intro h
  unfold jsTrim at h
  rw [List.reverse_eq_nil_iff, List.dropWhile_eq_nil_iff] at h
  have hall : ∀ x ∈ s.dropWhile isJsSpace, isJsSpace x = true := fun x hx =>
    h x (List.mem_reverse.mpr hx)
  have hsplit : c ∈ s.takeWhile isJsSpace ++ s.dropWhile isJsSpace := by
    rw [List.takeWhile_append_dropWhile]
    exact hc
  rcases List.mem_append.mp hsplit with hm | hm
  · exact absurd (List.mem_takeWhile_imp hm) (by simp [hcs])
  · exact absurd (hall c hm) (by simp [hcs])

/-- Every block contains the hash of its marker. -/
theorem hash_mem_sectionBlock (p : Provider) (r : QueryResult) :
    ('#' : Char) ∈ sectionBlock p r := by
  rw [sectionBlock_eq]
  exact List.mem_append.mpr (Or.inl (List.mem_append.mpr (Or.inl (by decide))))

/-- On a line list opening with a marker, the declarative split has no
implicit `"General"` section. -/
theorem specSectionsWith_marker (nameOf : Str → Str) (m : Str) (t : List Str)
    (hm : isMarkerLine m = true) :
    specSectionsWith nameOf (m :: t) = specMarkedWith nameOf (m :: t) := by
  unfold specSectionsWith
  rw [List.takeWhile_cons, List.dropWhile_cons]
  simp [hm]

/-- C10: for a non-empty provider list whose labels contain no newline
and whose settled outcomes contain no line starting with `"## "`,
parsing the completed fan-out's content yields exactly one section per
provider, in provider order, named by the provider's label with
surrounding whitespace removed. -/
theorem c10_roundtrip (now : Nat) (providers : List Provider)
    (results : List (Provider × QueryResult))
    (hne : providers ≠ [])
    (hres : resolveAll providers = Except.ok results)
    (hlabel : ∀ p ∈ providers, nlChar ∉ p.label)
    (htext : ∀ pr ∈ results, ∀ l ∈ splitNl (outcomeBody pr.2), isMarkerLine l = false) :
    (parseSections (queryProviders now providers).content).map (fun s => s.name) =
      providers.map (fun p => jsTrim p.label) := by
  have hfst := resolveAll_fst providers results hres
  have hcontent : (queryProviders now providers).content =
      List.intercalate (strL "\n\n") (results.map (fun pr => sectionBlock pr.1 pr.2)) := by
    unfold queryProviders
    rw [hres]
  have hlabels2 : ∀ pr ∈ results, nlChar ∉ pr.1.label := by
    intro pr hpr
    apply hlabel
    rw [← hfst]
    exact List.mem_map_of_mem Prod.fst hpr
  cases results with
  | nil =>
    rw [← hfst] at hne
    exact absurd rfl hne
  | cons pr0 prs =>
    have hmapsplit : ((pr0 :: prs).map (fun pr => sectionBlock pr.1 pr.2)).map splitNl =
        ((pr0 :: prs).map
          (fun pr => (blockMarkerLine pr.1, splitNl (blockBody pr.2)))).map
          (fun q => q.1 :: q.2) := by
      rw [List.map_map, List.map_map]
      exact List.map_congr_left (fun pr hpr => by
        exact splitNl_sectionBlock pr.1 pr.2 (hlabels2 pr hpr))
    obtain ⟨tail0, htail0⟩ := blocksLines_head
      (blockMarkerLine pr0.1, splitNl (blockBody pr0.2))
      (prs.map (fun pr => (blockMarkerLine pr.1, splitNl (blockBody pr.2))))
    have htail : List.intercalate [[]]
        (((pr0 :: prs).map
          (fun pr => (blockMarkerLine pr.1, splitNl (blockBody pr.2)))).map
          (fun q => q.1 :: q.2)) = blockMarkerLine pr0.1 :: tail0 := by
      rw [List.map_cons]
      exact htail0
    have hpairNoNl : ∀ l ∈ List.intercalate [[]]
        (((pr0 :: prs).map
          (fun pr => (blockMarkerLine pr.1, splitNl (blockBody pr.2)))).map
          (fun q => q.1 :: q.2)), nlChar ∉ l := by
      intro l hl
      rcases mem_intercalate_blank _ _ hl with rfl | ⟨L, hL, hml⟩
      · simp
      · obtain ⟨q, hq, rfl⟩ := List.mem_map.mp hL
        obtain ⟨pr, hpr, rfl⟩ := List.mem_map.mp hq
        rcases List.mem_cons.mp hml with rfl | hml2
        · exact blockMarkerLine_noNl pr.1 (hlabels2 pr hpr)
        · exact mem_splitNl_noNl _ l hml2
    have hlines : splitNl ((queryProviders now providers).content) =
        List.intercalate [[]]
          (((pr0 :: prs).map
            (fun pr => (blockMarkerLine pr.1, splitNl (blockBody pr.2)))).map
            (fun q => q.1 :: q.2)) := by
      rw [hcontent, intercalate_blocks_join _ (by simp), hmapsplit]
      exact List.splitOn_intercalate _ nlChar hpairNoNl (by rw [htail]; simp)
    have hhash : ('#' : Char) ∈ (queryProviders now providers).content := by
      rw [hcontent]
      exact (infix_intercalate _ _ _
        (List.mem_map_of_mem _ (List.mem_cons_self pr0 prs))).subset
        (hash_mem_sectionBlock pr0.1 pr0.2)
    have htrimne : jsTrim ((queryProviders now providers).content) ≠ [] :=
      jsTrim_ne_nil _ '#' hhash (by decide)
    unfold parseSections
    rw [if_neg htrimne, sectionLoop_none, hlines, htail,
      specSectionsWith_marker trimName _ _ (isMarker_blockMarkerLine pr0.1), ← htail]
    rw [List.map_map]
    have hnames := specMarked_blocks
      ((pr0 :: prs).map (fun pr => (blockMarkerLine pr.1, splitNl (blockBody pr.2))))
      (fun q hq => by
        obtain ⟨pr, _, rfl⟩ := List.mem_map.mp hq
        exact isMarker_blockMarkerLine pr.1)
      (fun q hq => by
        obtain ⟨pr, hpr, rfl⟩ := List.mem_map.mp hq
        exact blockBody_lines_nonmarker pr.2 (htext pr hpr))
    rw [show ((fun s => s.name) ∘
        (fun s : Str × List Str =>
          ({ name := s.1, lines := s.2, status := classifyLines s.2 } : ParsedSection))) =
        Prod.fst from rfl]
    rw [hnames, List.map_map, ← hfst, List.map_map]
    rfl

/-- Witness for C10: two providers — one succeeding with two output
lines, one failing — round-trip through the parser into exactly two
sections named by the trimmed labels, via the claim's theorem. -/
theorem c10_roundtrip_witness :
    ((parseSections (queryProviders 2
        [Provider.mk (strL "a") (strL " Alpha ")
          (Except.ok (QueryResult.success (strL "ok\nline2"))),
         Provider.mk (strL "b") (strL "Beta")
          (Except.ok (QueryResult.failure (strL "timeout")))]).content).map
        (fun s => s.name)) = [strL "Alpha", strL "Beta"] :=
  (c10_roundtrip 2
    [Provider.mk (strL "a") (strL " Alpha ")
      (Except.ok (QueryResult.success (strL "ok\nline2"))),
     Provider.mk (strL "b") (strL "Beta")
      (Except.ok (QueryResult.failure (strL "timeout")))]
    [(Provider.mk (strL "a") (strL " Alpha ")
        (Except.ok (QueryResult.success (strL "ok\nline2"))),
      QueryResult.success (strL "ok\nline2")),
     (Provider.mk (strL "b") (strL "Beta")
        (Except.ok (QueryResult.failure (strL "timeout"))),
      QueryResult.failure (strL "timeout"))]
    (by decide) (by decide) (by decide) (by decide)).trans (by decide)
